import Mathlib

/-!
Verification of the validate/repair core of the TDPrioritization repository.

The Python modules `prioritizer/pipelines/agentic/reviewing_output.py`,
`repair_node.py`, `agent_state.py` and `ai_agent.py` are shallowly embedded
here.  Text is modelled as `List Char`; Python string primitives
(`strip`, `splitlines`, `split`, `isdigit`, `upper`, `startswith`,
`endswith` and the two anchored `re.sub` calls of
`normalize_llm_output`) are modelled character by character over their
ASCII semantics, with the usual Python line-break and whitespace
character classes.  The chat model is modelled as an opaque function
from the (system, user) message contents to an optional response
content, mirroring `llm.invoke(...).content` which may be `None`.
-/

namespace TDP

/-- Text, one Python `str`, as a list of characters. -/
abbrev Str := List Char

/-- One parsed table row: the `|`-separated, stripped fields. -/
abbrev Row := List Str

/-- `String.data` shorthand for writing concrete texts. -/
def str (x : String) : Str := x.data

/-- The apostrophe character (code 39). -/
def apos : Char := Char.ofNat 39

/-- The backtick character (code 96). -/
def btick : Char := Char.ofNat 96

/-- Opening curly brace (code 123), as printed by Python `str(dict)`. -/
def lbrace : Char := Char.ofNat 123

/-- Closing curly brace (code 125). -/
def rbrace : Char := Char.ofNat 125

/-- Python `str.strip()` whitespace class (ASCII plus the common
Unicode whitespace code points). -/
def pyIsSpace (c : Char) : Bool :=
  decide (c.toNat ∈ [9, 10, 11, 12, 13, 28, 29, 30, 31, 32, 133, 160,
    0x1680, 0x2000, 0x2001, 0x2002, 0x2003, 0x2004, 0x2005, 0x2006,
    0x2007, 0x2008, 0x2009, 0x200A, 0x2028, 0x2029, 0x202F, 0x205F, 0x3000])

/-- Python `str.splitlines()` line-boundary class. -/
def isLineBreak (c : Char) : Bool :=
  decide (c.toNat ∈ [10, 11, 12, 13, 28, 29, 30, 133, 0x2028, 0x2029])

/-- Python `str.strip()`. -/
def pyStrip (t : Str) : Str :=
  ((t.dropWhile pyIsSpace).reverse.dropWhile pyIsSpace).reverse

/-- Python `str.splitlines()`, worker: accumulates the current line
(reversed); a `\r\n` pair is a single boundary; a trailing boundary
does not open a final empty line. -/
def splitLinesGo : List Char → List Char → List (List Char)
  | [], acc => [acc.reverse]
  | c :: rest, acc =>
    if isLineBreak c then
      match rest with
      | [] => [acc.reverse]
      | d :: rest2 =>
        if c = '\r' ∧ d = '\n' then
          (if rest2 = [] then [acc.reverse] else acc.reverse :: splitLinesGo rest2 [])
        else acc.reverse :: splitLinesGo (d :: rest2) []
    else splitLinesGo rest (c :: acc)

/-- Python `str.splitlines()` (empty string gives no lines). -/
def splitLines (t : Str) : List Str :=
  if t = [] then [] else splitLinesGo t []

/-- Python `sep.join(...)` for a one-character separator. -/
def joinSep (sep : Char) : List Str → Str
  | [] => []
  | [x] => x
  | x :: xs => x ++ sep :: joinSep sep xs

/-- `"\n".join(lines)`. -/
def joinNL : List Str → Str := joinSep '\n'

/-- Python `ln.split("|")`, worker. -/
def splitPipeGo : List Char → List Char → List Str
  | [], acc => [acc.reverse]
  | c :: rest, acc =>
    if c = '|' then acc.reverse :: splitPipeGo rest []
    else splitPipeGo rest (c :: acc)

/-- Python `ln.split("|")`. -/
def splitPipe (l : Str) : List Str := splitPipeGo l []

/-- Base code points of the Unicode decimal-digit runs 0..9 (general
category Nd): the characters Python `int` converts and `str.isdigit`
accepts as decimal digits. -/
def decDigitBases : List Nat :=
  [0x30, 0x660, 0x6F0, 0x7C0, 0x966, 0x9E6, 0xA66, 0xAE6, 0xB66, 0xBE6,
   0xC66, 0xCE6, 0xD66, 0xDE6, 0xE50, 0xED0, 0xF20, 0x1040, 0x1090, 0x17E0,
   0x1810, 0x1946, 0x19D0, 0x1A80, 0x1A90, 0x1B50, 0x1BB0, 0x1C40, 0x1C50,
   0xA620, 0xA8D0, 0xA900, 0xA9D0, 0xA9F0, 0xAA50, 0xABF0, 0xFF10,
   0x104A0, 0x10D30, 0x11066, 0x110F0, 0x11136, 0x111D0, 0x112F0, 0x11450,
   0x114D0, 0x11650, 0x116C0, 0x11730, 0x118E0, 0x11950, 0x11C50, 0x11D50,
   0x11DA0, 0x11F50, 0x16A60, 0x16AC0, 0x16B50,
   0x1D7CE, 0x1D7D8, 0x1D7E2, 0x1D7EC, 0x1D7F6,
   0x1E140, 0x1E2F0, 0x1E4F0, 0x1E950, 0x1FBF0]

/-- Code point ranges of the digit-valued characters that are not
decimal (Unicode Numeric_Type Digit: superscript, subscript, circled,
parenthesized, full-stop, Ethiopic, Tai Tham and Kharoshthi digits):
Python `str.isdigit` accepts them but `int` raises ValueError on them. -/
def nonDecimalDigitRanges : List (Nat × Nat) :=
  [(0xB2, 0xB3), (0xB9, 0xB9), (0x1369, 0x1371), (0x19DA, 0x19DA),
   (0x2070, 0x2070), (0x2074, 0x2079), (0x2080, 0x2089),
   (0x2460, 0x2468), (0x2474, 0x247C), (0x2488, 0x2490),
   (0x24EA, 0x24EA), (0x24F5, 0x24FD), (0x2776, 0x277E),
   (0x2780, 0x2788), (0x278A, 0x2792), (0x10A40, 0x10A43)]

/-- One character of a string Python `int` converts: a Unicode decimal
digit (category Nd). -/
def pyIsDecimalDigit (c : Char) : Bool :=
  decDigitBases.any (fun b => b ≤ c.toNat && c.toNat ≤ b + 9)

/-- One character `str.isdigit` accepts: a decimal digit or one of the
digit-valued non-decimal characters. -/
def pyIsDigitChar (c : Char) : Bool :=
  pyIsDecimalDigit c ||
  nonDecimalDigitRanges.any (fun p => p.1 ≤ c.toNat && c.toNat ≤ p.2)

/-- Python `s.isdigit()`: nonempty and all digit characters. -/
def isDigitStr (l : Str) : Bool := !l.isEmpty && l.all pyIsDigitChar

/-- The digit value of a decimal digit character (its offset inside
its Nd run); 0 on other characters, where it is never used. -/
def digitVal (c : Char) : Nat :=
  match decDigitBases.find? (fun b => b ≤ c.toNat && c.toNat ≤ b + 9) with
  | some b => c.toNat - b
  | none => 0

/-- Python `int(s)` on a string of decimal digits (`int` accepts every
Unicode decimal digit, in any script). -/
def pyIntVal (l : Str) : Nat :=
  l.foldl (fun a c => a * 10 + digitVal c) 0

/-- Python `str.upper` on one character.  The mapping is exact on every
character whose uppercase image is an ASCII letter - the ASCII letters
a-z, dotless i (U+0131, image I) and long s (U+017F, image S); every
other Unicode case mapping has a non-ASCII or multi-letter image that
cannot form the severity keywords HIGH, MEDIUM or LOW, so for each use
in this file it is equivalent to the identity taken here. -/
def pyToUpper (c : Char) : Char :=
  if 97 ≤ c.toNat ∧ c.toNat ≤ 122 then Char.ofNat (c.toNat - 32)
  else if c.toNat = 0x131 then Char.ofNat 73
  else if c.toNat = 0x17F then Char.ofNat 83
  else c

/-- Python `s.upper()`. -/
def upperStr (l : Str) : Str := l.map pyToUpper

/-- `text[len(tok):].strip()` when `text.startswith(tok)`, then
`text[:-len(tok)].strip()` when the result `.endswith(tok)` — one pass
of the token-stripping loop body of `normalize_llm_output`. -/
def stripTok (tok t : Str) : Str :=
  let t1 := if tok.isPrefixOf t then pyStrip (t.drop tok.length) else t
  if tok.isSuffixOf t1 then pyStrip (t1.take (t1.length - tok.length)) else t1

/-- The `"```"` fence. -/
def fence : Str := [btick, btick, btick]

/-- The `"```text"` fence. -/
def fenceText : Str := fence ++ str ("text")

/-- The `"```csv"` fence. -/
def fenceCsv : Str := fence ++ str ("csv")

/-- `[0-9A-Za-z]` of the two anchored `re.sub` calls. -/
def asciiAlnum (c : Char) : Bool :=
  decide (48 ≤ c.toNat ∧ c.toNat ≤ 57) ||
  (decide (65 ≤ c.toNat ∧ c.toNat ≤ 90) || decide (97 ≤ c.toNat ∧ c.toNat ≤ 122))

/-- `normalize_llm_output` of `reviewing_output.py` (lines 9–22):
strip, strip the fence/quote tokens once each at both ends, then strip
every leading and trailing non-alphanumeric character. -/
def normalize_llm_output (t : Str) : Str :=
  if t = [] then t
  else
    let t1 := pyStrip t
    let t2 := stripTok fenceCsv t1
    let t3 := stripTok fenceText t2
    let t4 := stripTok fence t3
    let t5 := stripTok ['"'] t4
    let t6 := stripTok [apos] t5
    let t7 := t6.dropWhile (fun c => !asciiAlnum c)
    (t7.reverse.dropWhile (fun c => !asciiAlnum c)).reverse

/-- `re.fullmatch(r"[-|:\s]+", ln)`: a pure markdown separator line. -/
def isSepLine (l : Str) : Bool :=
  !l.isEmpty && l.all (fun c => c = '-' || c = '|' || c = ':' || pyIsSpace c)

/-- `_parse_table` of `reviewing_output.py` (lines 25–46): normalize,
split into stripped nonempty lines, drop literal fence lines, and turn
every non-separator line into its stripped `|`-fields. -/
def parse_table (t : Str) : List Str × List Row :=
  let t0 := normalize_llm_output t
  let lines0 := ((splitLines t0).map pyStrip).filter (fun l => !l.isEmpty)
  if lines0 = [] then ([], [])
  else
    let lines := lines0.filter (fun l => !(l = fence || l = fenceText || l = fenceCsv))
    let rows := (lines.filter (fun l => !isSepLine l)).map
      (fun l => (splitPipe l).map pyStrip)
    (lines, rows)

/-- Python `str(n)` for a natural number. -/
def natRepr (k : Nat) : Str := (Nat.repr k).data

/-- Join with a multi-character separator (`", ".join`-style). -/
def joinWith (sep : Str) : List Str → Str
  | [] => []
  | [x] => x
  | x :: xs => x ++ sep ++ joinWith sep xs

/-- Python `str(list-of-int)`, e.g. `[1, 2]`. -/
def listNatRepr (l : List Nat) : Str :=
  '[' :: joinWith (str (", ")) (l.map natRepr) ++ str ("]")

/-- Python `repr(s)` for quote-free content: apostrophe quoting, switching
to double quotes when the text itself holds an apostrophe. -/
def strRepr (s : Str) : Str :=
  if s.contains apos && !s.contains '"' then '"' :: s ++ ['"']
  else apos :: s ++ [apos]

/-- Python `str(list-of-str)`, e.g. a list of two ids. -/
def listStrRepr (l : List Str) : Str :=
  '[' :: joinWith (str (", ")) (l.map strRepr) ++ str ("]")

/-- Lexicographic (code point) order on Python strings. -/
def lexLe : Str → Str → Bool
  | [], _ => true
  | _ :: _, [] => false
  | a :: as, b :: bs => if a = b then lexLe as bs else decide (a.toNat < b.toNat)

/-- Insert into a `lexLe`-sorted list. -/
def insertStr (x : Str) : List Str → List Str
  | [] => [x]
  | y :: ys => if lexLe x y then x :: y :: ys else y :: insertStr x ys

/-- Python `sorted` on strings (insertion sort). -/
def sortStr (l : List Str) : List Str := l.foldr insertStr []

/-- Insert into a `≤`-sorted list of naturals. -/
def insertNat (x : Nat) : List Nat → List Nat
  | [] => [x]
  | y :: ys => if x ≤ y then x :: y :: ys else y :: insertNat x ys

/-- Python `sorted` on ints (insertion sort). -/
def sortNat (l : List Nat) : List Nat := l.foldr insertNat []

/-- Python `set(...)` as the deduplicated (first-occurrence) list. -/
def dedupGo (seen : List Str) : List Str → List Str
  | [] => []
  | x :: xs => if x ∈ seen then dedupGo seen xs else x :: dedupGo (x :: seen) xs

/-- Python `set(...)` of a list of strings. -/
def dedup (l : List Str) : List Str := dedupGo [] l

/-- The violations map: Python `dict[str, str]` as an ordered
association list with unique keys. -/
abbrev ErrMap := List (Str × Str)

/-- Python `errors[k] = v`: replace in place when the key exists,
append otherwise. -/
def setErr (m : ErrMap) (k v : Str) : ErrMap :=
  if m.any (fun p => p.1 = k) then
    m.map (fun p => if p.1 = k then (k, v) else p)
  else m ++ [(k, v)]

/-- The key list of a violations map. -/
def errKeys (m : ErrMap) : List Str := m.map (fun p => p.1)

/-- `k in errors`. -/
def hasKey (m : ErrMap) (k : Str) : Bool := m.any (fun p => p.1 = k)

/-- `EXPECTED_HEADER` of `reviewing_output.py` (line 6). -/
def EXPECTED_HEADER : Str :=
  str ("Rank|Id|Name of Smell|Name|File|Severity|Reason for Prioritization")

/-- `SEVERITY_ORDER` of `reviewing_output.py` (line 7); the code only
consults its key set. -/
def SEVERITY_ORDER : List (Str × Nat) :=
  [(str ("HIGH"), 2), (str ("MEDIUM"), 1), (str ("LOW"), 0)]

/-- `severity_u in SEVERITY_ORDER`. -/
def sevValid (s : Str) : Bool := SEVERITY_ORDER.any (fun p => p.1 = s)

/-- Violation keys, exactly as written in `reviewing_output.py`. -/
def kEmptyOutput : Str := str ("Empty output")

/-- Key of the zero-row parse defect. -/
def kEmptyRows : Str := str ("Empty rows")

/-- Key of the header rule. -/
def kHeader : Str := str ("Invalid header format")

/-- Key of the row-count rule. -/
def kRowCount : Str := str ("Incorrect number of rows")

/-- Key of the column-count rule. -/
def kColCount : Str := str ("Invalid column count")

/-- Key of the per-row rank-value rule. -/
def kInvalidRank : Str := str ("Invalid rank value")

/-- Key of the per-row missing-id rule. -/
def kNonNumId : Str := str ("Non-numerical id")

/-- Key of the severity-value rule. -/
def kInvalidSev : Str := str ("Invalid severity value")

/-- Key of the reason-length rule. -/
def kLacking : Str := str ("Lacking description")

/-- Key of the rank-contiguity rule. -/
def kRankOrder : Str := str ("Invalid rank ordering")

/-- Key of the missing-ids rule. -/
def kMissing : Str := str ("Missing smell identifiers")

/-- Key of the unexpected-ids rule. -/
def kExtra : Str := str ("Unexpected smell identifiers")

/-- Key of the duplicate-ids rule. -/
def kDupes : Str := str ("Duplicate smell identifiers")

/-- Key of the severity-ordering rule. -/
def kSevOrder : Str := str ("Severity ordering violation")

/-- Diagnostic texts, with the f-string interpolations of the source. -/
def msgEmptyOutput : Str := str ("Empty output_text.")

/-- Diagnostic of the zero-row defect. -/
def msgEmptyRows : Str := str ("Could not parse any rows from output.")

/-- Diagnostic of the header rule. -/
def msgHeader : Str :=
  str ("The table header is incorrect. The first row MUST be exactly: ") ++
  apos :: EXPECTED_HEADER ++ apos :: str (". Do not add, remove, or rename columns.")

/-- Diagnostic of the row-count rule. -/
def msgRowCount (n found : Nat) : Str :=
  str ("The output must contain exactly one data row per smell. Expected ") ++
  natRepr n ++ str (" rows (excluding the header), but found ") ++ natRepr found ++ str (".")

/-- Diagnostic of the column-count rule. -/
def msgColCount (i : Nat) : Str :=
  str ("Row ") ++ natRepr i ++
  str (" does not have the required 7 columns. Each row MUST follow the format: Rank|Id|Name of Smell|Name|File|Severity|Reason for Prioritization.")

/-- Diagnostic of the rank-value rule. -/
def msgRank (i : Nat) (rank_s : Str) : Str :=
  str ("Row ") ++ natRepr i ++ str (" has an invalid Rank value (") ++
  apos :: rank_s ++ apos :: str ("). Rank MUST be a positive integer starting at 1.")

/-- Diagnostic of the missing-id rule. -/
def msgMissingId (i : Nat) : Str :=
  str ("Row ") ++ natRepr i ++ str (": Missing Id.")

/-- Diagnostic of the severity-value rule. -/
def msgSeverity (i : Nat) (sev : Str) : Str :=
  str ("Row ") ++ natRepr i ++ str (" has an invalid Severity (") ++
  apos :: sev ++ apos :: str ("). Severity MUST be one of: HIGH, MEDIUM, LOW.")

/-- Diagnostic of the reason-length rule. -/
def msgReason (i : Nat) : Str :=
  str ("Row ") ++ natRepr i ++ str (": Reason is too short or missing.")

/-- Diagnostic of the rank-contiguity rule. -/
def msgRankOrder (n : Nat) (ranks : List Nat) : Str :=
  str ("Ranks must be sequential integers from 1 to ") ++ natRepr n ++
  str (" with no gaps or duplicates. Detected ranks: ") ++ listNatRepr ranks ++ str (".")

/-- Diagnostic of the missing-ids rule. -/
def msgMissing (missing : List Str) : Str :=
  str ("The output does not include all required smell Ids. Missing Ids: ") ++
  listStrRepr missing ++ str (". Each smell MUST appear exactly once.")

/-- Diagnostic of the unexpected-ids rule. -/
def msgExtra (extra : List Str) : Str :=
  str ("The output contains Ids that were not part of the input: ") ++
  listStrRepr extra ++ str (". Only the provided smell Ids may be used.")

/-- Diagnostic of the duplicate-ids rule. -/
def msgDupes (dupes : List Str) : Str :=
  str ("The following smell Ids appear more than once: ") ++
  listStrRepr dupes ++ str (". Each smell Id MUST appear exactly once.")

/-- Diagnostic of the severity-ordering rule. -/
def msgSevOrder (sev : Str) (idx : Nat) : Str :=
  str ("A ") ++ sev ++ str ("-severity smell appears at rank ") ++ natRepr idx ++
  str (" after a LOW-severity smell. LOW severity smells MUST NOT be ranked above MEDIUM or HIGH severity smells.")

/-- One evidence record as consumed by the agentic nodes: only the
`index` key is read (as `str(s.get("index"))`). -/
structure Smell where
  index : Str
deriving Repr, DecidableEq

/-- `State` of `agent_state.py`.  Keys the initial state may lack are
`Option`-valued (the nodes read them with `state.get(key, default)`);
the chat model is the opaque function described in the header. -/
structure State where
  smell_types : List Str
  smells : Option (List Smell)
  repo : Option Str
  use_git : Bool
  use_pylint : Bool
  use_code : Bool
  llm : Str → Str → Option Str
  output_text : Option Str
  out_dir : Str
  prompt_tokens : Option Int
  completion_tokens : Option Int
  total_tokens : Option Int
  validation_errors : Option ErrMap
  is_valid : Option Bool
  repair_attempts : Option Int
  max_repair_attempts : Option Int

/-- The accumulator of the row loop of `review_output_node`
(`errors`, `seen_ranks`, `seen_ids`, `severities_in_rank_order`). -/
structure Acc where
  errs : ErrMap
  ranks : List Nat
  ids : List Str
  sevs : List Str

/-- `(severity or "").strip().upper()` of a row. -/
def sevOfRow (r : Row) : Str := upperStr (pyStrip (r.getD 5 []))

/-- One iteration of the `for i, r in enumerate(data_rows, start=1)`
loop of `review_output_node` (lines 79–108).  The `else` branch of the
rank check runs `int(rank_s)`, which raises ValueError when the
digit-accepted rank holds a non-decimal digit; `rowRaises` marks those
rows, and this function gives the loop effect on the others. -/
def rowStep (i : Nat) (acc : Acc) (r : Row) : Acc :=
  if r.length ≠ 7 then
    { acc with errs := setErr acc.errs kColCount (msgColCount i) }
  else
    let rank_s := r.getD 0 []
    let id_s := r.getD 1 []
    let severity := r.getD 5 []
    let reason := r.getD 6 []
    let a1 :=
      if !isDigitStr rank_s then
        { acc with errs := setErr acc.errs kInvalidRank (msgRank i rank_s) }
      else { acc with ranks := acc.ranks ++ [pyIntVal rank_s] }
    let a2 :=
      if id_s.isEmpty then
        { a1 with errs := setErr a1.errs kNonNumId (msgMissingId i) }
      else { a1 with ids := a1.ids ++ [id_s] }
    let sev_u := upperStr (pyStrip severity)
    let a3 :=
      if !sevValid sev_u then
        { a2 with errs := setErr a2.errs kInvalidSev (msgSeverity i severity) }
      else { a2 with sevs := a2.sevs ++ [sev_u] }
    if reason.length < 5 then
      { a3 with errs := setErr a3.errs kLacking (msgReason i) }
    else a3

/-- The whole row loop. -/
def loopRows (i : Nat) (acc : Acc) : List Row → Acc
  | [] => acc
  | r :: rest => loopRows (i + 1) (rowStep i acc r) rest

/-- The `if seen_ranks:` block (lines 111–114). -/
def ranksBlock (n : Nat) (e : ErrMap) (ranks : List Nat) : ErrMap :=
  if ranks ≠ [] then
    if sortNat ranks ≠ List.range' 1 n then
      setErr e kRankOrder (msgRankOrder n (sortNat ranks))
    else e
  else e

/-- The `if seen_ids:` block (lines 116–133): set-difference and
duplicate checks against the expected id set. -/
def idsBlock (expected_ids : List Str) (e : ErrMap) (seen_ids : List Str) : ErrMap :=
  if seen_ids ≠ [] then
    let missing := sortStr ((dedup expected_ids).filter (fun x => !decide (x ∈ seen_ids)))
    let extra := sortStr ((dedup seen_ids).filter (fun x => !decide (x ∈ expected_ids)))
    let dupes := sortStr ((dedup seen_ids).filter (fun x => seen_ids.count x > 1))
    let e1 := if missing ≠ [] then setErr e kMissing (msgMissing missing) else e
    let e2 := if extra ≠ [] then setErr e1 kExtra (msgExtra extra) else e1
    if dupes ≠ [] then setErr e2 kDupes (msgDupes dupes) else e2
  else e

/-- The severity scan (lines 136–144): walk the collected severities,
remember whether LOW was seen, record one violation and stop. -/
def sevScanGo (idx : Nat) (seenLow : Bool) (e : ErrMap) : List Str → ErrMap
  | [] => e
  | sev :: rest =>
    if sev = str ("LOW") then sevScanGo (idx + 1) true e rest
    else if seenLow && (sev = str ("MEDIUM") || sev = str ("HIGH")) then
      setErr e kSevOrder (msgSevOrder sev idx)
    else sevScanGo (idx + 1) seenLow e rest

/-- The severity-ordering stage. -/
def sevScan (e : ErrMap) (sevs : List Str) : ErrMap := sevScanGo 1 false e sevs

/-- Validation of a parsed table (lines 66–144): header, row count,
the row loop, rank contiguity, id completeness, severity ordering. -/
def validateParsed (expected_ids : List Str) (row0 : Row) (data : List Row) : ErrMap :=
  let n := expected_ids.length
  let header := pyStrip (joinSep '|' row0)
  let e0 : ErrMap := if header ≠ EXPECTED_HEADER then setErr [] kHeader msgHeader else []
  let e1 := if data.length ≠ n then setErr e0 kRowCount (msgRowCount n data.length) else e0
  let acc := loopRows 1 ⟨e1, [], [], []⟩ data
  let e2 := ranksBlock n acc.errs acc.ranks
  let e3 := idsBlock expected_ids e2 acc.ids
  sevScan e3 acc.sevs

/-- `review_output_node` of `reviewing_output.py` (lines 48–147). -/
def review_output_node (st : State) : State :=
  let smells := st.smells.getD []
  let expected_ids := smells.map Smell.index
  let text := pyStrip (st.output_text.getD [])
  if text = [] then
    { st with validation_errors := some [(kEmptyOutput, msgEmptyOutput)],
              is_valid := some false }
  else
    match (parse_table text).2 with
    | [] =>
      { st with validation_errors := some [(kEmptyRows, msgEmptyRows)],
                is_valid := some false }
    | row0 :: data =>
      let errs := validateParsed expected_ids row0 data
      { st with validation_errors := some errs, is_valid := some errs.isEmpty }

/-- `REPAIR_SYSTEM` of `repair_node.py`. -/
def REPAIR_SYSTEM : Str :=
  str ("You are a strict output repair assistant.\n\nReturn ONLY a corrected pipe-separated table.\n- The first row MUST be the exact header.\n- Then exactly one row per smell Id.\n- No extra text, no code fences, no quotes.\n")

/-- Python `str(dict)` of the violations map. -/
def pyDictRepr (m : ErrMap) : Str :=
  lbrace :: joinWith (str (", "))
    (m.map (fun p => strRepr p.1 ++ str (": ") ++ strRepr p.2)) ++ [rbrace]

/-- The repair user message of `repair_node.py` (lines 33–47). -/
def buildRepairMsg (expected_ids : List Str) (errors : ErrMap) (prior : Str) : Str :=
  str ("Fix the output to satisfy all constraints.\n\nRequired header (must be first row, exact):\n") ++
  EXPECTED_HEADER ++
  str ("\n\nExpected smell Ids (each exactly once):\n") ++
  listStrRepr expected_ids ++
  str ("\n\nValidation errors (fix ALL):\n") ++
  pyDictRepr errors ++
  str ("\n\nPrior output to repair:\n") ++
  prior ++ str ("\n")

/-- `repair_output_node` of `repair_node.py` (lines 17–59). -/
def repair_output_node (st : State) : State :=
  let attempts := st.repair_attempts.getD 0
  let max_attempts := st.max_repair_attempts.getD 2
  if attempts ≥ max_attempts then st
  else
    let expected_ids := (st.smells.getD []).map Smell.index
    let errors := st.validation_errors.getD []
    let prior := st.output_text.getD []
    let resp := st.llm REPAIR_SYSTEM (buildRepairMsg expected_ids errors prior)
    let fixed := pyStrip (resp.getD [])
    { st with output_text := some fixed, repair_attempts := some (attempts + 1) }

/-- The nodes added to the `StateGraph` by `run_agent_pipeline`
(`ai_agent.py` lines 171–177). -/
def agentGraphNodes : List Str :=
  [str ("load_smells"), str ("create_more_context"),
   str ("analyze_code_segments_with_agent"), str ("prioritize_smells_node"),
   str ("write_prioritization_report")]

/-- The edges added by `run_agent_pipeline` (`ai_agent.py` lines
179–184); `__start__`/`__end__` are the langgraph START/END nodes. -/
def agentGraphEdges : List (Str × Str) :=
  [(str ("__start__"), str ("load_smells")),
   (str ("load_smells"), str ("create_more_context")),
   (str ("create_more_context"), str ("analyze_code_segments_with_agent")),
   (str ("analyze_code_segments_with_agent"), str ("prioritize_smells_node")),
   (str ("prioritize_smells_node"), str ("write_prioritization_report")),
   (str ("write_prioritization_report"), str ("__end__"))]

/-- The stripped output text the Validator works on. -/
def textOf (st : State) : Str := pyStrip (st.output_text.getD [])

/-- The parsed rows of the state's output text. -/
def rowsOf (st : State) : List Row := (parse_table (textOf st)).2

/-- The data rows (all parsed rows but the header candidate). -/
def dataRowsOf (st : State) : List Row := (rowsOf st).tail

/-- The violations map computed by the Validator. -/
def errsOf (st : State) : ErrMap :=
  ((review_output_node st).validation_errors).getD []

/-- The expected id list (`[str(s.get("index")) for s in smells]`). -/
def expectedIdsOf (st : State) : List Str :=
  (st.smells.getD []).map Smell.index

/-- The ranks the row loop collects: one per 7-column row whose rank
field is a digit string. -/
def collectRanks : List Row → List Nat
  | [] => []
  | r :: rs =>
    (if r.length = 7 && isDigitStr (r.getD 0 []) then [pyIntVal (r.getD 0 [])] else [])
      ++ collectRanks rs

/-- The ids the row loop collects: one per 7-column row with a
nonempty id field. -/
def collectIds : List Row → List Str
  | [] => []
  | r :: rs =>
    (if r.length = 7 && !(r.getD 1 []).isEmpty then [r.getD 1 []] else [])
      ++ collectIds rs

/-- The severities the row loop collects: one per 7-column row whose
normalized severity is HIGH, MEDIUM or LOW. -/
def collectSevs : List Row → List Str
  | [] => []
  | r :: rs =>
    (if r.length = 7 && sevValid (sevOfRow r) then [sevOfRow r] else [])
      ++ collectSevs rs

/-- Scan a severity sequence: true when a MEDIUM or HIGH entry occurs
after a LOW entry has been seen. -/
def lowThenHighGo (seenLow : Bool) : List Str → Bool
  | [] => false
  | s :: rest =>
    if s = str ("LOW") then lowThenHighGo true rest
    else if seenLow && (s = str ("MEDIUM") || s = str ("HIGH")) then true
    else lowThenHighGo seenLow rest

/-- The severity-monotonicity defect predicate on a severity sequence. -/
def lowThenHigh (l : List Str) : Bool := lowThenHighGo false l

/-- A state as the repository's own test helper `make_mock_state`
builds it, with the given expected ids and output text. -/
def mkState (ids : List String) (txt : String) : State where
  smell_types := []
  smells := some (ids.map (fun i => ⟨str i⟩))
  repo := none
  use_git := false
  use_pylint := false
  use_code := false
  llm := fun _ _ => none
  output_text := some (str txt)
  out_dir := []
  prompt_tokens := some 0
  completion_tokens := some 0
  total_tokens := some 0
  validation_errors := some []
  is_valid := none
  repair_attempts := some 0
  max_repair_attempts := some 2

/-- One smell, one data row whose rank field is the digit string 0. -/
def stRankZero : State :=
  mkState ["1"]
    ("Rank|Id|Name of Smell|Name|File|Severity|Reason for Prioritization\n0|1|Feature Envy|alpha|a.py|HIGH|good reason here")

/-- One expected id (7), one data row whose id field is empty, so no
row contributes a collected id. -/
def stNoIds : State :=
  mkState ["7"]
    ("Rank|Id|Name of Smell|Name|File|Severity|Reason for Prioritization\n1||Feature Envy|alpha|a.py|HIGH|good reason here")

/-- Scenario B: the otherwise fully valid 2-row table with the header
line omitted. -/
def stNoHeader : State :=
  mkState ["1", "2"]
    ("1|1|Feature Envy|alpha|a.py|HIGH|good reason one\n2|2|Feature Envy|beta|b.py|HIGH|good reason two")

/-- A text in which the header line occurs again after a data row. -/
def tHeaderTwice : Str :=
  str ("Rank|Id|Name of Smell|Name|File|Severity|Reason for Prioritization\n1|1|Feature Envy|alpha|a.py|HIGH|good reason here\nRank|Id|Name of Smell|Name|File|Severity|Reason for Prioritization")

/-- The header candidate row produced by parsing the header line. -/
def headerRow : Row := (splitPipe EXPECTED_HEADER).map pyStrip

/-- A text whose trailing `\x60\x60\x60text` fence line is followed by a
stray apostrophe: normalization keeps the fence line, the line filter
then drops it, and the surviving line `a|b|` ends in a pipe that a
second normalization pass strips. -/
def tFenceTail : Str := str ("a|b|\n") ++ fenceText ++ [apos]

/-- The one raising statement of `review_output_node`: for a 7-column
row whose rank field passes `isdigit`, the `int(rank_s)` call at
`reviewing_output.py` line 93 raises ValueError exactly when some
character of the field is a digit that is not decimal. -/
def rowRaises (r : Row) : Bool :=
  decide (r.length = 7) && (isDigitStr (r.getD 0 []) &&
    !(r.getD 0 []).all pyIsDecimalDigit)

/-- Whether the Validator raises ValueError on this state: some data
row trips the `int` conversion of its rank field. -/
def reviewRaises (st : State) : Bool := (dataRowsOf st).any rowRaises

/-- `review_output_node` with its exception surfaced: `none` when the
`int` conversion raises (no state is returned at all), otherwise the
returned state.  `review_output_node` itself gives the returned state
on the non-raising inputs. -/
def review_output_node_checked (st : State) : Option State :=
  if reviewRaises st then none else some (review_output_node st)

/-- One smell, one data row whose rank field is the single character
SUPERSCRIPT TWO (U+00B2): `str.isdigit` accepts it, `int` raises. -/
def stRankSup : State :=
  mkState ["1"]
    ("Rank|Id|Name of Smell|Name|File|Severity|Reason for Prioritization\n²|1|Feature Envy|alpha|a.py|HIGH|good reason here")

/-- Which violation key one loop iteration can set for a row: the
column-count key for a short or long row, otherwise the rank, id,
severity and reason keys under their respective per-field conditions. -/
def rowErrPred (k : Str) (r : Row) : Bool :=
  if r.length ≠ 7 then decide (k = kColCount)
  else
    (decide (k = kInvalidRank) && !isDigitStr (r.getD 0 [])) ||
    ((decide (k = kNonNumId) && (r.getD 1 []).isEmpty) ||
     ((decide (k = kInvalidSev) && !sevValid (sevOfRow r)) ||
      (decide (k = kLacking) && decide ((r.getD 6 []).length < 5))))

/-- The header-rule trigger. -/
def headerBad (row0 : Row) : Bool :=
  decide (pyStrip (joinSep '|' row0) ≠ EXPECTED_HEADER)

/-- The rank-contiguity trigger. -/
def rankOrderBad (n : Nat) (ranks : List Nat) : Bool :=
  decide (ranks ≠ []) && decide (sortNat ranks ≠ List.range' 1 n)

/-- The missing-ids trigger. -/
def missingBad (exp seen : List Str) : Bool :=
  decide (seen ≠ []) &&
  decide (sortStr ((dedup exp).filter (fun x => !decide (x ∈ seen))) ≠ [])

/-- The unexpected-ids trigger. -/
def extraBad (exp seen : List Str) : Bool :=
  decide (seen ≠ []) &&
  decide (sortStr ((dedup seen).filter (fun x => !decide (x ∈ exp))) ≠ [])

/-- The duplicate-ids trigger. -/
def dupesBad (seen : List Str) : Bool :=
  decide (seen ≠ []) &&
  decide (sortStr ((dedup seen).filter (fun x => seen.count x > 1)) ≠ [])

/-- A small text on which normalization fixes the rejoined surviving
lines, so re-parsing reproduces the first parse. -/
def tStable : Str := str ("a|b\nc|d")

theorem pyIsSpace_of_isLineBreak {c : Char} (h : isLineBreak c = true) :
    pyIsSpace c = true := by
  simp only [isLineBreak, decide_eq_true_eq, List.mem_cons, List.mem_singleton,
    List.not_mem_nil, or_false] at h
  simp only [pyIsSpace, decide_eq_true_eq, List.mem_cons, List.mem_singleton]
  rcases h with h | h | h | h | h | h | h | h | h | h <;> omega

theorem hasKey_nil (k : Str) : hasKey [] k = false := rfl

theorem hasKey_map_replace (m : ErrMap) (k v k' : Str) :
    hasKey (m.map (fun p => if p.1 = k then (k, v) else p)) k' = hasKey m k' := by
  induction m with
  | nil => rfl
  | cons p t ih =>
    simp only [hasKey, List.map_cons, List.any_cons] at *
    by_cases hp : p.1 = k
    · simp [hp, ih]
    · simp [hp, ih]

theorem hasKey_append_single (m : ErrMap) (k v k' : Str) :
    hasKey (m ++ [(k, v)]) k' = (hasKey m k' || decide (k' = k)) := by
  by_cases h : k' = k
  · subst h; simp [hasKey, List.any_append]
  · have h2 : ¬(k = k') := fun hh => h hh.symm
    simp [hasKey, List.any_append, h, h2]

theorem hasKey_setErr (m : ErrMap) (k0 v k : Str) :
    hasKey (setErr m k0 v) k = (hasKey m k || decide (k = k0)) := by
  unfold setErr
  by_cases h : m.any (fun p => p.1 = k0) = true
  · rw [if_pos h, hasKey_map_replace]
    by_cases hk : k = k0
    · subst hk; have h' : hasKey m k = true := h; simp [h']
    · simp [hk]
  · rw [if_neg h, hasKey_append_single]

theorem hasKey_iteSetErr (c : Prop) [Decidable c] (m : ErrMap) (k0 v k : Str) :
    hasKey (if c then setErr m k0 v else m) k
      = (hasKey m k || (decide (k = k0) && decide c)) := by
  split
  · next hc => simp [hasKey_setErr, hc]
  · next hc => simp [hc]

theorem isEmpty_eq_decide {α : Type} [DecidableEq α] (l : List α) :
    l.isEmpty = decide (l = []) := by
  cases l <;> simp

theorem decide_nat_lt_false {a b : Nat} (h : b ≤ a) : decide (a < b) = false :=
  decide_eq_false (Nat.not_lt.mpr h)

theorem rowStep_errs (i : Nat) (acc : Acc) (r : Row) (k : Str) :
    hasKey (rowStep i acc r).errs k = (hasKey acc.errs k || rowErrPred k r) := by
  unfold rowStep rowErrPred
  split
  · simp_all [hasKey_setErr]
  · dsimp only
    repeat' split
    all_goals simp_all [sevOfRow, hasKey_setErr, Bool.or_assoc, isEmpty_eq_decide,
      decide_nat_lt_false]

theorem rowStep_ranks (i : Nat) (acc : Acc) (r : Row) :
    (rowStep i acc r).ranks = acc.ranks ++
      (if r.length = 7 && isDigitStr (r.getD 0 []) then [pyIntVal (r.getD 0 [])] else []) := by
  unfold rowStep
  split
  · simp_all
  · dsimp only
    repeat' split
    all_goals simp_all

theorem rowStep_ids (i : Nat) (acc : Acc) (r : Row) :
    (rowStep i acc r).ids = acc.ids ++
      (if r.length = 7 && !(r.getD 1 []).isEmpty then [r.getD 1 []] else []) := by
  unfold rowStep
  split
  · simp_all
  · dsimp only
    repeat' split
    all_goals simp_all

theorem rowStep_sevs (i : Nat) (acc : Acc) (r : Row) :
    (rowStep i acc r).sevs = acc.sevs ++
      (if r.length = 7 && sevValid (sevOfRow r) then [sevOfRow r] else []) := by
  unfold rowStep
  split
  · simp_all
  · dsimp only
    repeat' split
    all_goals simp_all [sevOfRow]

theorem loopRows_errs (rs : List Row) : ∀ (i : Nat) (acc : Acc) (k : Str),
    hasKey (loopRows i acc rs).errs k = (hasKey acc.errs k || rs.any (rowErrPred k)) := by
  induction rs with
  | nil => intro i acc k; simp [loopRows]
  | cons r rest ih =>
    intro i acc k
    simp [loopRows, ih, rowStep_errs, Bool.or_assoc]

theorem loopRows_ranks (rs : List Row) : ∀ (i : Nat) (acc : Acc),
    (loopRows i acc rs).ranks = acc.ranks ++ collectRanks rs := by
  induction rs with
  | nil => intro i acc; simp [loopRows, collectRanks]
  | cons r rest ih =>
    intro i acc
    simp [loopRows, ih, rowStep_ranks, collectRanks]

theorem loopRows_ids (rs : List Row) : ∀ (i : Nat) (acc : Acc),
    (loopRows i acc rs).ids = acc.ids ++ collectIds rs := by
  induction rs with
  | nil => intro i acc; simp [loopRows, collectIds]
  | cons r rest ih =>
    intro i acc
    simp [loopRows, ih, rowStep_ids, collectIds]

theorem loopRows_sevs (rs : List Row) : ∀ (i : Nat) (acc : Acc),
    (loopRows i acc rs).sevs = acc.sevs ++ collectSevs rs := by
  induction rs with
  | nil => intro i acc; simp [loopRows, collectSevs]
  | cons r rest ih =>
    intro i acc
    simp [loopRows, ih, rowStep_sevs, collectSevs]

theorem ranksBlock_hasKey (n : Nat) (e : ErrMap) (ranks : List Nat) (k : Str) :
    hasKey (ranksBlock n e ranks) k
      = (hasKey e k || (decide (k = kRankOrder) && rankOrderBad n ranks)) := by
  unfold ranksBlock rankOrderBad
  by_cases h1 : ranks ≠ []
  · by_cases h2 : sortNat ranks ≠ List.range' 1 n
    · simp [h1, h2, hasKey_setErr]
    · simp [h1, h2]
  · simp [h1]

theorem idsBlock_hasKey (exp : List Str) (e : ErrMap) (seen : List Str) (k : Str) :
    hasKey (idsBlock exp e seen) k
      = (hasKey e k ||
         ((decide (k = kMissing) && missingBad exp seen) ||
          ((decide (k = kExtra) && extraBad exp seen) ||
           (decide (k = kDupes) && dupesBad seen)))) := by
  unfold idsBlock missingBad extraBad dupesBad
  split
  · dsimp only
    repeat' split
    all_goals simp_all [hasKey_setErr, Bool.or_assoc]
  · simp_all

theorem sevScanGo_hasKey (sevs : List Str) : ∀ (idx : Nat) (seenLow : Bool) (e : ErrMap) (k : Str),
    hasKey (sevScanGo idx seenLow e sevs) k
      = (hasKey e k || (decide (k = kSevOrder) && lowThenHighGo seenLow sevs)) := by
  induction sevs with
  | nil => intro idx seenLow e k; simp [sevScanGo, lowThenHighGo]
  | cons s rest ih =>
    intro idx seenLow e k
    unfold sevScanGo lowThenHighGo
    by_cases h1 : s = str ("LOW")
    · simp [h1, ih]
    · by_cases h2 : (seenLow && (decide (s = str ("MEDIUM")) || decide (s = str ("HIGH")))) = true
      · simp [h1, h2, hasKey_setErr]
      · simp [h1, h2, ih]

theorem validateParsed_hasKey (ids : List Str) (row0 : Row) (data : List Row) (k : Str) :
    hasKey (validateParsed ids row0 data) k =
      ((decide (k = kHeader) && headerBad row0) ||
       ((decide (k = kRowCount) && decide (data.length ≠ ids.length)) ||
        (data.any (rowErrPred k) ||
         ((decide (k = kRankOrder) && rankOrderBad ids.length (collectRanks data)) ||
          ((decide (k = kMissing) && missingBad ids (collectIds data)) ||
           ((decide (k = kExtra) && extraBad ids (collectIds data)) ||
            ((decide (k = kDupes) && dupesBad (collectIds data)) ||
             (decide (k = kSevOrder) && lowThenHigh (collectSevs data))))))))) := by
  unfold validateParsed lowThenHigh headerBad
  simp only [sevScan, sevScanGo_hasKey, idsBlock_hasKey, ranksBlock_hasKey,
    loopRows_errs, loopRows_ranks, loopRows_ids, loopRows_sevs,
    hasKey_iteSetErr, hasKey_nil, List.nil_append]
  simp [Bool.or_assoc]

theorem parse_table_nil : parse_table [] = ([], []) := rfl

theorem review_cases (st : State) :
    (review_output_node st).validation_errors = some (errsOf st) ∧
    (review_output_node st).is_valid = some ((errsOf st).isEmpty) ∧
    ((textOf st = [] ∧ rowsOf st = [] ∧ errsOf st = [(kEmptyOutput, msgEmptyOutput)]) ∨
     (textOf st ≠ [] ∧ rowsOf st = [] ∧ errsOf st = [(kEmptyRows, msgEmptyRows)]) ∨
     (∃ row0 data, textOf st ≠ [] ∧ rowsOf st = row0 :: data ∧
       errsOf st = validateParsed (expectedIdsOf st) row0 data)) := by
  unfold errsOf review_output_node rowsOf textOf expectedIdsOf
  dsimp only
  split
  · next h =>
    refine ⟨rfl, rfl, Or.inl ⟨h, ?_, rfl⟩⟩
    rw [h, parse_table_nil]
  · next h =>
    split
    · next h2 =>
      exact ⟨rfl, rfl, Or.inr (Or.inl ⟨h, h2, rfl⟩)⟩
    · next row0 data h2 =>
      exact ⟨rfl, rfl, Or.inr (Or.inr ⟨row0, data, h, h2, rfl⟩)⟩

theorem rowErrPred_other (k : Str) (r : Row)
    (h1 : k ≠ kColCount) (h2 : k ≠ kInvalidRank) (h3 : k ≠ kNonNumId)
    (h4 : k ≠ kInvalidSev) (h5 : k ≠ kLacking) :
    rowErrPred k r = false := by
  unfold rowErrPred
  split <;> simp [h1, h2, h3, h4, h5]

theorem any_rowErrPred_other (k : Str) (rs : List Row)
    (h1 : k ≠ kColCount) (h2 : k ≠ kInvalidRank) (h3 : k ≠ kNonNumId)
    (h4 : k ≠ kInvalidSev) (h5 : k ≠ kLacking) :
    rs.any (rowErrPred k) = false := by
  rw [List.any_eq_false]
  intro r _
  simp [rowErrPred_other k r h1 h2 h3 h4 h5]

/-- Claim C2: refuted on the code - the Validator can raise.  On the
state below the single data row carries SUPERSCRIPT TWO as its rank
field: Python `str.isdigit` accepts it, so the per-row rank check
records nothing, and the `int(rank_s)` conversion at
`reviewing_output.py` line 93 then raises ValueError, so the Validator
returns no result at all instead of a violations map. -/
theorem c2_validator_can_raise :
    (review_output_node_checked stRankSup).isNone = true ∧
    isDigitStr (str ("²")) = true ∧
    (str ("²")).all pyIsDecimalDigit = false ∧
    (dataRowsOf stRankSup).map (fun r => r.getD 0 []) = [str ("²")] := by decide

/-- Claim C3: one repair invocation either increments the attempt
counter by exactly one or returns the state unchanged, and a state
within budget stays within budget. -/
theorem c3_repair_budget (st : State)
    (h : st.repair_attempts.getD 0 ≤ st.max_repair_attempts.getD 2) :
    ((repair_output_node st).repair_attempts.getD 0 = st.repair_attempts.getD 0 + 1 ∨
      repair_output_node st = st) ∧
    (repair_output_node st).repair_attempts.getD 0 ≤
      (repair_output_node st).max_repair_attempts.getD 2 := by
  unfold repair_output_node
  dsimp only
  split
  · next hge => exact ⟨Or.inr rfl, h⟩
  · next hlt =>
    refine ⟨Or.inl rfl, ?_⟩
    simp only [Option.getD_some]
    omega

/-- Witness for C3 at a concrete state within budget. -/
theorem c3_repair_budget_witness :
    (stRankZero.repair_attempts.getD 0 ≤ stRankZero.max_repair_attempts.getD 2) ∧
    (((repair_output_node stRankZero).repair_attempts.getD 0 =
        stRankZero.repair_attempts.getD 0 + 1 ∨
      repair_output_node stRankZero = stRankZero) ∧
     (repair_output_node stRankZero).repair_attempts.getD 0 ≤
       (repair_output_node stRankZero).max_repair_attempts.getD 2) :=
  ⟨by decide, c3_repair_budget stRankZero (by decide)⟩

/-- Claim C10: the Validator writes only `validation_errors` and
`is_valid`; every other field of the state is returned unchanged. -/
theorem c10_validator_frame (st : State) :
    (review_output_node st).smell_types = st.smell_types ∧
    (review_output_node st).smells = st.smells ∧
    (review_output_node st).repo = st.repo ∧
    (review_output_node st).use_git = st.use_git ∧
    (review_output_node st).use_pylint = st.use_pylint ∧
    (review_output_node st).use_code = st.use_code ∧
    (review_output_node st).llm = st.llm ∧
    (review_output_node st).output_text = st.output_text ∧
    (review_output_node st).out_dir = st.out_dir ∧
    (review_output_node st).prompt_tokens = st.prompt_tokens ∧
    (review_output_node st).completion_tokens = st.completion_tokens ∧
    (review_output_node st).total_tokens = st.total_tokens ∧
    (review_output_node st).repair_attempts = st.repair_attempts ∧
    (review_output_node st).max_repair_attempts = st.max_repair_attempts := by
  unfold review_output_node
  dsimp only
  split
  · simp
  · split <;> simp

theorem insertStr_ne_nil (x : Str) (l : List Str) : insertStr x l ≠ [] := by
  cases l with
  | nil => simp [insertStr]
  | cons y ys => unfold insertStr; split <;> simp

theorem sortStr_eq_nil (l : List Str) : sortStr l = [] ↔ l = [] := by
  cases l with
  | nil => simp [sortStr]
  | cons x xs =>
    simp only [sortStr, List.foldr_cons]
    simp [insertStr_ne_nil x (xs.foldr insertStr [])]

theorem mem_dedupGo (x : Str) (l : List Str) :
    ∀ seen, x ∈ dedupGo seen l ↔ (x ∈ l ∧ x ∉ seen) := by
  induction l with
  | nil => intro seen; simp [dedupGo]
  | cons y ys ih =>
    intro seen
    unfold dedupGo
    split
    · next hy =>
      rw [ih]
      by_cases hxy : x = y
      · subst hxy; simp [hy]
      · simp [hxy]
    · next hy =>
      simp only [List.mem_cons, ih]
      by_cases hxy : x = y
      · subst hxy; simp [hy]
      · simp [hxy]

theorem mem_dedup (x : Str) (l : List Str) : x ∈ dedup l ↔ x ∈ l := by
  simp [dedup, mem_dedupGo]

theorem sortFilterDedup_any (p : Str → Bool) (l : List Str) :
    decide (sortStr ((dedup l).filter p) ≠ []) = l.any p := by
  by_cases h : l.any p = true
  · rw [h]
    apply decide_eq_true
    rw [Ne, sortStr_eq_nil]
    obtain ⟨a, ha, hpa⟩ := List.any_eq_true.mp h
    intro hnil
    rw [List.filter_eq_nil_iff] at hnil
    exact hnil a ((mem_dedup a l).mpr ha) hpa
  · have h' : l.any p = false := Bool.eq_false_iff.mpr h
    rw [h']
    apply decide_eq_false
    intro hne
    apply hne
    rw [sortStr_eq_nil, List.filter_eq_nil_iff]
    intro a ha
    have hfa := List.any_eq_false.mp h' a ((mem_dedup a l).mp ha)
    simp [hfa]

theorem rowErrPred_kNonNumId (r : Row) :
    rowErrPred kNonNumId r = (decide (r.length = 7) && (r.getD 1 []).isEmpty) := by
  unfold rowErrPred
  split
  · next h => simp +decide [h]
  · next h => simp +decide [not_not.mp h]

/-- Claim C6 (amended): provided at least one 7-column row carries a
nonempty id, the Validator flags missing ids exactly when some
expected id is absent from the collected ids, unexpected ids exactly
when some collected id is not expected, and duplicate ids exactly when
some collected id occurs more than once; a row without an id is
reported per-row instead and contributes no collected id. -/
theorem c6_id_rule (st : State) :
    hasKey (errsOf st) kMissing =
      (decide (collectIds (dataRowsOf st) ≠ []) &&
        (expectedIdsOf st).any (fun x => !decide (x ∈ collectIds (dataRowsOf st)))) ∧
    hasKey (errsOf st) kExtra =
      (decide (collectIds (dataRowsOf st) ≠ []) &&
        (collectIds (dataRowsOf st)).any (fun x => !decide (x ∈ expectedIdsOf st))) ∧
    hasKey (errsOf st) kDupes =
      (decide (collectIds (dataRowsOf st) ≠ []) &&
        (collectIds (dataRowsOf st)).any
          (fun x => decide (1 < (collectIds (dataRowsOf st)).count x))) := by
  obtain ⟨-, -, hcase⟩ := review_cases st
  rcases hcase with ⟨h1, h2, h3⟩ | ⟨h1, h2, h3⟩ | ⟨row0, data, h1, h2, h3⟩
  · rw [h3]; unfold dataRowsOf; rw [h2]
    refine ⟨by simp +decide [collectIds], by simp +decide [collectIds],
      by simp +decide [collectIds]⟩
  · rw [h3]; unfold dataRowsOf; rw [h2]
    refine ⟨by simp +decide [collectIds], by simp +decide [collectIds],
      by simp +decide [collectIds]⟩
  · have hd : dataRowsOf st = data := by unfold dataRowsOf; rw [h2]; rfl
    rw [h3, hd]
    refine ⟨?_, ?_, ?_⟩
    · rw [validateParsed_hasKey,
        any_rowErrPred_other _ _ (by decide) (by decide) (by decide) (by decide) (by decide)]
      unfold missingBad
      rw [sortFilterDedup_any]
      simp +decide
    · rw [validateParsed_hasKey,
        any_rowErrPred_other _ _ (by decide) (by decide) (by decide) (by decide) (by decide)]
      unfold extraBad
      rw [sortFilterDedup_any]
      simp +decide
    · rw [validateParsed_hasKey,
        any_rowErrPred_other _ _ (by decide) (by decide) (by decide) (by decide) (by decide)]
      unfold dupesBad
      rw [sortFilterDedup_any]
      simp +decide

/-- Counterexample for C6 as stated: the only data row has an empty id
field, the expected id 7 appears in no row, and yet no missing-id
violation is recorded (only the per-row missing-id key fires), because
the missing/unexpected/duplicate checks are guarded by the collected
ids being nonempty. -/
theorem c6_no_ids_counterexample :
    expectedIdsOf stNoIds = [str ("7")] ∧
    collectIds (dataRowsOf stNoIds) = [] ∧
    hasKey (errsOf stNoIds) kMissing = false ∧
    hasKey (errsOf stNoIds) kNonNumId = true := by decide

/-- Counterexample for C7 as stated: on the header-omitted but
otherwise valid table, the violations map is not the header-format
entry alone — the first data row is consumed as the header, so the
row-count rule (among others) fires as well. -/
theorem c7_counterexample :
    hasKey (errsOf stNoHeader) kHeader = true ∧
    hasKey (errsOf stNoHeader) kRowCount = true ∧
    errKeys (errsOf stNoHeader) ≠ [kHeader] := by decide

/-- Claim C7 (amended): omitting the header from an otherwise fully
valid multi-row table yields the header-format violation together with
the cascade it induces — row count, rank contiguity and missing id —
and nothing else. -/
theorem c7_scenario_b :
    errKeys (errsOf stNoHeader) = [kHeader, kRowCount, kRankOrder, kMissing] ∧
    (review_output_node stNoHeader).is_valid = some false := by decide

theorem count_map_ge {α β : Type} [BEq α] [LawfulBEq α] [BEq β] [LawfulBEq β]
    (f : α → β) (l : List α) (a : α) : l.count a ≤ (l.map f).count (f a) := by
  induction l with
  | nil => simp
  | cons x t ih =>
    simp only [List.map_cons, List.count_cons]
    by_cases h : x = a
    · subst h
      simp only [beq_self_eq_true, if_true]
      omega
    · have hb : (x == a) = false := beq_eq_false_iff_ne.mpr h
      simp only [hb, Bool.false_eq_true, if_false]
      split <;> omega

/-- Counterexample for C8 as stated: a text holding the header line
twice parses to a row list in which the header row occurs twice — the
parser performs no header deduplication. -/
theorem c8_counterexample :
    (parse_table tHeaderTwice).2.count headerRow = 2 ∧
    (parse_table tHeaderTwice).1.count EXPECTED_HEADER = 2 := by decide

theorem count_header_lines_le (ls : List Str) :
    ls.count EXPECTED_HEADER ≤
      ((ls.filter (fun l => !isSepLine l)).map
        (fun l => (splitPipe l).map pyStrip)).count headerRow := by
  have h1 : (ls.filter (fun l => !isSepLine l)).count EXPECTED_HEADER
      = ls.count EXPECTED_HEADER := List.count_filter (by decide)
  have h2 := count_map_ge (fun l => (splitPipe l).map pyStrip)
    (ls.filter (fun l => !isSepLine l)) EXPECTED_HEADER
  rw [h1] at h2
  exact h2

/-- Claim C8 (amended): the Table Parser never drops a repeated header
line: every occurrence of the header among the surviving lines yields
an occurrence of the header row in the output, so the header row
occurs at least as often as the header line. -/
theorem c8_no_header_dedup (t : Str) :
    (parse_table t).1.count EXPECTED_HEADER ≤ (parse_table t).2.count headerRow := by
  unfold parse_table
  dsimp only
  split
  · simp
  · exact count_header_lines_le _

/-- Claim C1: the state graph wired by `run_agent_pipeline` contains no
validator or repair node at all — generation is routed straight to
report writing — so the pipeline never invokes the Validator or the
repair loop before producing the final artifact. -/
theorem c1_agent_graph_no_validator :
    decide (str ("review_output_node") ∈ agentGraphNodes) = false ∧
    decide (str ("repair_output_node") ∈ agentGraphNodes) = false ∧
    agentGraphEdges.all (fun e =>
      !decide (e.1 = str ("review_output_node")) &&
      (!decide (e.2 = str ("review_output_node")) &&
       (!decide (e.1 = str ("repair_output_node")) &&
        !decide (e.2 = str ("repair_output_node"))))) = true ∧
    (agentGraphEdges.filter (fun e => e.1 = str ("prioritize_smells_node"))).map Prod.snd
      = [str ("write_prioritization_report")] := by decide

theorem dropWhile_cons_head {α : Type} (p : α → Bool) :
    ∀ (l : List α) (c : α) (t : List α), l.dropWhile p = c :: t → p c = false := by
  intro l
  induction l with
  | nil => intro c t h; cases h
  | cons x xs ih =>
    intro c t h
    rw [List.dropWhile_cons] at h
    split at h
    · exact ih c t h
    · next hx =>
      cases h
      simpa using hx

theorem dropWhile_eq_self_of_head {α : Type} (p : α → Bool) (l : List α)
    (h : ∀ c t, l = c :: t → p c = false) : l.dropWhile p = l := by
  cases l with
  | nil => rfl
  | cons x xs =>
    rw [List.dropWhile_cons, h x xs rfl]
    simp

theorem mem_pyStrip {c : Char} {l : Str} (h : c ∈ pyStrip l) : c ∈ l := by
  unfold pyStrip at h
  have h1 : c ∈ (l.dropWhile pyIsSpace).reverse.dropWhile pyIsSpace :=
    List.mem_reverse.mp h
  have h2 : c ∈ (l.dropWhile pyIsSpace).reverse := (List.dropWhile_suffix _).subset h1
  exact (List.dropWhile_suffix _).subset (List.mem_reverse.mp h2)

theorem pyStrip_isPrefix (l : Str) : pyStrip l <+: l.dropWhile pyIsSpace := by
  conv_rhs => rw [← List.reverse_reverse (l.dropWhile pyIsSpace)]
  exact List.reverse_prefix.mpr (List.dropWhile_suffix _)

theorem pyStrip_head {l : Str} {c : Char} {t : Str} (h : pyStrip l = c :: t) :
    pyIsSpace c = false := by
  obtain ⟨s, hs⟩ := pyStrip_isPrefix l
  rw [h] at hs
  have h2 : l.dropWhile pyIsSpace = c :: (t ++ s) := by rw [← hs]; rfl
  exact dropWhile_cons_head _ _ _ _ h2

theorem pyStrip_rev_head {l : Str} {c : Char} {t : Str} (h : (pyStrip l).reverse = c :: t) :
    pyIsSpace c = false := by
  have h2 : (pyStrip l).reverse = (l.dropWhile pyIsSpace).reverse.dropWhile pyIsSpace := by
    unfold pyStrip
    rw [List.reverse_reverse]
  rw [h2] at h
  exact dropWhile_cons_head _ _ _ _ h

theorem pyStrip_idem (l : Str) : pyStrip (pyStrip l) = pyStrip l := by
  have h1 : (pyStrip l).dropWhile pyIsSpace = pyStrip l :=
    dropWhile_eq_self_of_head _ _ (fun c t h => pyStrip_head h)
  have h2 : (pyStrip l).reverse.dropWhile pyIsSpace = (pyStrip l).reverse :=
    dropWhile_eq_self_of_head _ _ (fun c t h => pyStrip_rev_head h)
  show ((((pyStrip l).dropWhile pyIsSpace).reverse).dropWhile pyIsSpace).reverse = pyStrip l
  rw [h1, h2, List.reverse_reverse]

theorem goEq_nil (acc : List Char) : splitLinesGo [] acc = [acc.reverse] := rfl

theorem goEq_nb {c : Char} (cs acc : List Char) (hc : isLineBreak c = false) :
    splitLinesGo (c :: cs) acc = splitLinesGo cs (c :: acc) := by
  conv_lhs => rw [splitLinesGo.eq_def]
  simp [hc]

theorem goEq_single {c : Char} (acc : List Char) (hb : isLineBreak c = true) :
    splitLinesGo [c] acc = [acc.reverse] := by
  conv_lhs => rw [splitLinesGo.eq_def]
  simp [hb]

theorem goEq_brk {c d : Char} (rest2 acc : List Char) (hb : isLineBreak c = true)
    (hnot : ¬(c = '\r' ∧ d = '\n')) :
    splitLinesGo (c :: d :: rest2) acc = acc.reverse :: splitLinesGo (d :: rest2) [] := by
  conv_lhs => rw [splitLinesGo.eq_def]
  simp [hb, hnot]

theorem goEq_crlf (rest2 acc : List Char) :
    splitLinesGo ('\r' :: '\n' :: rest2) acc =
      if rest2 = [] then [acc.reverse] else acc.reverse :: splitLinesGo rest2 [] := by
  conv_lhs => rw [splitLinesGo.eq_def]
  simp [show isLineBreak '\r' = true from by decide]

theorem splitLinesGo_no_break (l : List Char) :
    ∀ acc, (∀ c ∈ l, isLineBreak c = false) → splitLinesGo l acc = [acc.reverse ++ l] := by
  induction l with
  | nil => intro acc _; simp [goEq_nil]
  | cons c cs ih =>
    intro acc h
    have hc : isLineBreak c = false := h c (List.mem_cons_self c cs)
    rw [goEq_nb cs acc hc, ih (c :: acc) (fun d hd => h d (List.mem_cons_of_mem c hd))]
    simp

theorem splitLinesGo_break (l : List Char) : ∀ (rest acc : List Char),
    (∀ c ∈ l, isLineBreak c = false) → rest ≠ [] →
    splitLinesGo (l ++ '\n' :: rest) acc = (acc.reverse ++ l) :: splitLinesGo rest [] := by
  induction l with
  | nil =>
    intro rest acc _ hr
    cases rest with
    | nil => exact absurd rfl hr
    | cons d rest2 =>
      show splitLinesGo ('\n' :: d :: rest2) acc = _
      rw [goEq_brk rest2 acc (by decide) (fun hand => absurd hand.1 (by decide))]
      simp
  | cons c cs ih =>
    intro rest acc h hr
    have hc : isLineBreak c = false := h c (List.mem_cons_self c cs)
    show splitLinesGo (c :: (cs ++ '\n' :: rest)) acc = _
    rw [goEq_nb _ _ hc, ih rest (c :: acc) (fun d hd => h d (List.mem_cons_of_mem c hd)) hr]
    simp

theorem joinNL_ne_nil {l0 : Str} (ls : List Str) (h : l0 ≠ []) : joinNL (l0 :: ls) ≠ [] := by
  cases ls with
  | nil => simpa [joinNL, joinSep] using h
  | cons l1 ls' => simp [joinNL, joinSep]

theorem splitLines_joinNL : ∀ (ls : List Str), ls ≠ [] →
    (∀ l ∈ ls, l ≠ []) → (∀ l ∈ ls, ∀ c ∈ l, isLineBreak c = false) →
    splitLines (joinNL ls) = ls
  | [], h0, _, _ => absurd rfl h0
  | [l0], _, hne, hnb => by
    have h1 : l0 ≠ [] := hne l0 (by simp)
    show splitLines l0 = [l0]
    unfold splitLines
    rw [if_neg h1, splitLinesGo_no_break l0 [] (hnb l0 (by simp))]
    simp
  | l0 :: l1 :: ls'', _, hne, hnb => by
    have h1 : l0 ≠ [] := hne l0 (by simp)
    have hr : joinNL (l1 :: ls'') ≠ [] := joinNL_ne_nil _ (hne l1 (by simp))
    show splitLines (l0 ++ '\n' :: joinNL (l1 :: ls'')) = _
    unfold splitLines
    rw [if_neg (by simp), splitLinesGo_break l0 (joinNL (l1 :: ls'')) []
      (hnb l0 (by simp)) hr]
    simp only [List.reverse_nil, List.nil_append]
    congr 1
    have hrec := splitLines_joinNL (l1 :: ls'') (by simp)
      (fun l hl => hne l (List.mem_cons_of_mem _ hl))
      (fun l hl => hnb l (List.mem_cons_of_mem _ hl))
    unfold splitLines at hrec
    rwa [if_neg hr] at hrec

theorem splitLinesGo_elems : ∀ (n : Nat) (l : List Char), l.length ≤ n →
    ∀ (acc : List Char), (∀ c ∈ acc, isLineBreak c = false) →
    ∀ x ∈ splitLinesGo l acc, ∀ c ∈ x, isLineBreak c = false := by
  intro n
  induction n with
  | zero =>
    intro l hl acc hacc x hx c hc
    have hnil : l = [] := List.length_eq_zero.mp (Nat.le_zero.mp hl)
    subst hnil
    simp only [splitLinesGo, List.mem_singleton] at hx
    subst hx
    exact hacc c (List.mem_reverse.mp hc)
  | succ n ih =>
    intro l hl acc hacc x hx c hc
    cases l with
    | nil =>
      simp only [splitLinesGo, List.mem_singleton] at hx
      subst hx
      exact hacc c (List.mem_reverse.mp hc)
    | cons c0 cs =>
      by_cases hb : isLineBreak c0 = true
      · cases cs with
        | nil =>
          rw [goEq_single acc hb] at hx
          simp only [List.mem_singleton] at hx
          subst hx
          exact hacc c (List.mem_reverse.mp hc)
        | cons d rest2 =>
          by_cases hcr : c0 = '\r' ∧ d = '\n'
          · obtain ⟨rfl, rfl⟩ := hcr
            rw [goEq_crlf rest2 acc] at hx
            by_cases h2 : rest2 = []
            · rw [if_pos h2] at hx
              simp only [List.mem_singleton] at hx
              subst hx
              exact hacc c (List.mem_reverse.mp hc)
            · rw [if_neg h2] at hx
              rcases List.mem_cons.mp hx with hx1 | hx2
              · subst hx1
                exact hacc c (List.mem_reverse.mp hc)
              · refine ih rest2 ?_ [] (by simp) x hx2 c hc
                simp only [List.length_cons] at hl
                omega
          · rw [goEq_brk rest2 acc hb hcr] at hx
            rcases List.mem_cons.mp hx with hx1 | hx2
            · subst hx1
              exact hacc c (List.mem_reverse.mp hc)
            · refine ih (d :: rest2) ?_ [] (by simp) x hx2 c hc
              simp only [List.length_cons] at hl ⊢
              omega
      · have hb' : isLineBreak c0 = false := Bool.eq_false_iff.mpr hb
        rw [goEq_nb cs acc hb'] at hx
        refine ih cs ?_ (c0 :: acc) ?_ x hx c hc
        · simp only [List.length_cons] at hl
          omega
        · intro d hd
          rcases List.mem_cons.mp hd with hd1 | hd2
          · subst hd1
            exact hb'
          · exact hacc d hd2

theorem splitLines_no_break (t : Str) :
    ∀ x ∈ splitLines t, ∀ c ∈ x, isLineBreak c = false := by
  unfold splitLines
  split
  · simp
  · intro x hx c hc
    exact splitLinesGo_elems t.length t le_rfl [] (by simp) x hx c hc

theorem parse_table_snd (t : Str) :
    (parse_table t).2 = (((parse_table t).1).filter (fun l => !isSepLine l)).map
      (fun l => (splitPipe l).map pyStrip) := by
  unfold parse_table
  dsimp only
  split
  · simp
  · rfl

theorem parse_table_lines (t : Str) (l : Str) (hl : l ∈ (parse_table t).1) :
    pyStrip l = l ∧ l ≠ [] ∧ (∀ c ∈ l, isLineBreak c = false) ∧
    l ≠ fence ∧ l ≠ fenceText ∧ l ≠ fenceCsv := by
  unfold parse_table at hl
  dsimp only at hl
  split at hl
  · simp at hl
  · rw [List.mem_filter] at hl
    obtain ⟨hl0, hfence⟩ := hl
    rw [List.mem_filter] at hl0
    obtain ⟨hlm, hne⟩ := hl0
    obtain ⟨x, hx, rfl⟩ := List.mem_map.mp hlm
    simp only [Bool.not_eq_true', Bool.or_eq_false_iff, decide_eq_false_iff_not] at hfence
    refine ⟨pyStrip_idem x, by simpa using hne, ?_, hfence.1.1, hfence.1.2, hfence.2⟩
    intro c hc
    exact splitLines_no_break _ x hx c (mem_pyStrip hc)

/-- Claim C9 (amended): re-running the Table Parser on the join of its
own surviving lines reproduces the first parse whenever normalization
leaves the rejoined text unchanged.  (In general this can fail: when a
trailing fence line is dropped by the line filter, the rejoined text
may end in punctuation that a second normalization pass strips.) -/
theorem c9_reparse (t : Str)
    (h : normalize_llm_output (joinNL (parse_table t).1) = joinNL (parse_table t).1) :
    parse_table (joinNL (parse_table t).1) = parse_table t := by
  rcases hls : (parse_table t).1 with _ | ⟨l0, ls'⟩
  · have h2 : (parse_table t).2 = [] := by
      rw [parse_table_snd, hls]
      rfl
    have hpt : parse_table t = ([], []) := Prod.ext hls h2
    rw [hpt]
    rfl
  · rw [hls] at h
    have hfacts : ∀ l ∈ l0 :: ls',
        pyStrip l = l ∧ l ≠ [] ∧ (∀ c ∈ l, isLineBreak c = false) ∧
        l ≠ fence ∧ l ≠ fenceText ∧ l ≠ fenceCsv := by
      intro l hl
      exact parse_table_lines t l (hls ▸ hl)
    have hne : ∀ l ∈ l0 :: ls', l ≠ [] := fun l hl => (hfacts l hl).2.1
    have hsplit : splitLines (joinNL (l0 :: ls')) = l0 :: ls' :=
      splitLines_joinNL (l0 :: ls') (by simp) hne (fun l hl => (hfacts l hl).2.2.1)
    have hRHS : parse_table t = (l0 :: ls',
        ((l0 :: ls').filter (fun l => !isSepLine l)).map
          (fun l => (splitPipe l).map pyStrip)) := by
      refine Prod.ext hls ?_
      rw [parse_table_snd, hls]
    rw [hRHS]
    unfold parse_table
    dsimp only
    rw [h, hsplit]
    have hmap : (l0 :: ls').map pyStrip = l0 :: ls' := by
      rw [List.map_congr_left (fun a ha => (hfacts a ha).1)]
      exact List.map_id _
    rw [hmap]
    have hfilter1 : (l0 :: ls').filter (fun l => !l.isEmpty) = l0 :: ls' :=
      List.filter_eq_self.mpr (by
        intro a ha
        simpa [isEmpty_eq_decide] using hne a ha)
    rw [hfilter1, if_neg (by simp : ¬(l0 :: ls' = []))]
    have hfilter2 : (l0 :: ls').filter
        (fun l => !(l = fence || l = fenceText || l = fenceCsv)) = l0 :: ls' :=
      List.filter_eq_self.mpr (by
        intro a ha
        have hf := hfacts a ha
        simp [hf.2.2.2.1, hf.2.2.2.2.1, hf.2.2.2.2.2])
    rw [hfilter2]

/-- Witness for the amended C9 at a concrete stable text. -/
theorem c9_reparse_witness :
    normalize_llm_output (joinNL (parse_table tStable).1) = joinNL (parse_table tStable).1 ∧
    parse_table (joinNL (parse_table tStable).1) = parse_table tStable :=
  ⟨by decide, c9_reparse tStable (by decide)⟩

/-- Counterexample for C9 as stated: on the text `a|b|` + newline +
fence + apostrophe, the first parse keeps the line `a|b|` (three
fields), but re-parsing the rejoined lines strips the now-trailing
pipe during normalization and yields two fields. -/
theorem c9_counterexample :
    parse_table (joinNL (parse_table tFenceTail).1) ≠ parse_table tFenceTail ∧
    (parse_table tFenceTail).2 = [[str ("a"), str ("b"), []]] ∧
    (parse_table (joinNL (parse_table tFenceTail).1)).2 = [[str ("a"), str ("b")]] := by
  decide

end TDP
